import Mathlib

/-!
Shallow embedding of the `stuff` component-store (src/stuff/main.go) in Lean 4.

Go strings are modelled as lists of characters (`GoStr`); `strings.Index`
becomes `firstIdxOf`.  The relevance scores computed by `StringScore` /
`Component.MatchScore` are the small integers 0, 1, 2 weighted by 1, 3, 2
(all exactly representable in Go's `float32`), so they are modelled as `Nat`.
-/

/-- A Go string, modelled as its sequence of characters. -/
abbrev GoStr := List Char

/-- The `Component` struct of the in-memory store (src/stuff/main.go lines
366-378): fields `id`, `value`, `category`, `description`, `quantity`,
`notes`. -/
structure Component where
  id : Int
  value : GoStr
  category : GoStr
  description : GoStr
  quantity : GoStr
  notes : GoStr
deriving DecidableEq

/-- The Go zero value of `Component` (`var toEdit Component`). -/
def zeroComponent : Component := ⟨0, [], [], [], [], []⟩

/-- `strings.Index(haystack, needle)`: the index of the first occurrence of
`needle` inside `haystack`, `none` when there is none (Go returns -1). -/
def firstIdxOf (needle : GoStr) : GoStr → Option Nat
  | [] => if needle <+: ([] : GoStr) then some 0 else none
  | c :: rest =>
      if needle <+: (c :: rest) then some 0
      else (firstIdxOf needle rest).map (fun k => k + 1)

/-- `StringScore` (src/stuff/main.go lines 380-389): switch on
`strings.Index(haystack, needle)`; -1 ↦ 0, 0 ↦ 2 (start of string, higher
match), otherwise 1. -/
def StringScore (needle haystack : GoStr) : Nat :=
  match firstIdxOf needle haystack with
  | none => 0
  | some 0 => 2
  | some (_ + 1) => 1

/-- `Component.MatchScore` (src/stuff/main.go lines 392-397):
`1*StringScore(term, category) + 3*StringScore(term, value) +
2*StringScore(term, description)`. -/
def Component.MatchScore (c : Component) (term : GoStr) : Nat :=
  1 * StringScore term c.category + 3 * StringScore term c.value +
    2 * StringScore term c.description

/-- `needle` occurs as a substring of `haystack` (at some position). -/
def Occurs (needle haystack : GoStr) : Prop :=
  ∃ i, needle <+: haystack.drop i


/-!
## The in-memory backend (`InMemoryStore`, src/stuff/main.go lines 533-608)

Go's `map[int]*Component` stores one pointer per id; `EditRecord` detects
conflicts by pointer identity (`s.id2Component[id] != found`).  Pointers are
modelled as `Nat` tokens: every commit installs a fresh token (`next`),
so two pointers are equal exactly when their tokens are equal.  `WF` states
the allocator invariant (every stored token was allocated before `next`),
which holds for every store reachable from the empty one.
-/

/-- In Go, `ModifyFun` mutates the record in place and returns whether to
commit; functionally: the updated record together with the commit flag. -/
def ModifyFun := Component → Component × Bool

/-- The in-memory store: per-id entry `(pointer token, component)` plus the
fresh-pointer allocator. -/
structure InMemoryStore where
  recs : Int → Option (Nat × Component)
  next : Nat

/-- Pointer tokens stored in the map were allocated before `next`. -/
def InMemoryStore.WF (s : InMemoryStore) : Prop :=
  ∀ id t c, s.recs id = some (t, c) → t < s.next

def NewInMemoryStore : InMemoryStore := ⟨fun _ => none, 0⟩

/-- First critical section of `InMemoryStore.EditRecord` (lines 544-552):
under the lock, snapshot the pointer `found` and copy the record into
`toEdit` (`toEdit.id = id` when absent). -/
def InMemoryStore.readPhase (s : InMemoryStore) (id : Int) :
    Option Nat × Component :=
  match s.recs id with
  | some (t, c) => (some t, c)
  | none => (none, { zeroComponent with id := id })

/-- Second critical section of `InMemoryStore.EditRecord` (lines 553-562):
`toEdit.id = id` is forced back, then under the lock the current pointer is
compared against the snapshot; on mismatch the edit is discarded with the
conflict message, otherwise a fresh pointer to the edited copy is stored. -/
def InMemoryStore.commitPhase (s : InMemoryStore) (id : Int)
    (snap : Option Nat) (edited : Component) :
    InMemoryStore × Bool × String :=
  let toStore := { edited with id := id }
  if (s.recs id).map Prod.fst = snap then
    (⟨fun j => if j = id then some (s.next, toStore) else s.recs j,
      s.next + 1⟩, true, "")
  else
    (s, false, "Editing conflict. Discarding this edit. Sorry.")

/-- `InMemoryStore.EditRecord` run without interleaving: read phase, the
update callback outside the lock, then (when the callback commits) the
commit phase against the same store. -/
def InMemoryStore.EditRecord (s : InMemoryStore) (id : Int)
    (update : ModifyFun) : InMemoryStore × Bool × String :=
  let rp := s.readPhase id
  let eu := update rp.2
  if eu.2 then s.commitPhase id rp.1 eu.1 else (s, true, "")

def InMemoryStore.FindById (s : InMemoryStore) (id : Int) :
    Option Component :=
  (s.recs id).map Prod.snd

/-- `ScoredComponent` (src/stuff/main.go lines 572-575). -/
structure ScoredComponent where
  score : Nat
  comp : Component
deriving DecidableEq

/-- `ScoreList.Less` (lines 584-587): highest score first.  As the ordering
relation fed to the sort: `a` may precede `b` iff `b.score ≤ a.score`. -/
def scoreGE (a b : ScoredComponent) : Prop := b.score ≤ a.score

instance instDecScoreGE : DecidableRel scoreGE := fun a b =>
  inferInstanceAs (Decidable (b.score ≤ a.score))

/-- `InMemoryStore.Search` (lines 589-608) up to the final projection:
score every stored component (`contents` is the sequence in which Go's
randomized map iteration presents `s.id2Component`'s values), keep the ones
with positive score, and sort them by descending score (`sort.Sort` with
`ScoreList.Less`). -/
def SearchScored (contents : List Component) (term : GoStr) :
    List ScoredComponent :=
  List.insertionSort scoreGE
    ((contents.map fun c => ⟨c.MatchScore term, c⟩).filter
      fun sc => 0 < sc.score)

/-- `InMemoryStore.Search` (lines 589-608): the scored, filtered, sorted
list projected back to the components. -/
def Search (contents : List Component) (term : GoStr) : List Component :=
  (SearchScored contents term).map ScoredComponent.comp

/-!
## The durable backend (`DBBackend`, src/stuff/main.go lines 417-531)

A database row (table `component`) keeps nullable text columns plus the
`created` / `updated` timestamps; `time.Now()` is modelled by an explicit
`now : Nat` argument.
-/

structure DBRow where
  created : Nat
  updated : Option Nat
  category : Option GoStr
  value : Option GoStr
  description : Option GoStr
  notes : Option GoStr
  quantity : Option GoStr
deriving DecidableEq

/-- The database state: the `component` table, keyed by id. -/
def DBState := Int → Option DBRow

def nullIfEmpty (s : GoStr) : Option GoStr := if s = [] then none else some s

def emptyIfNull (s : Option GoStr) : GoStr := s.getD []

/-- `DBBackend.FindById` (lines 463-491): select the row and normalize null
columns to empty strings. -/
def DBState.FindById (db : DBState) (id : Int) : Option Component :=
  (db id).map fun r =>
    ⟨id, emptyIfNull r.value, emptyIfNull r.category,
      emptyIfNull r.description, emptyIfNull r.quantity, emptyIfNull r.notes⟩

/-- The read half of `DBBackend.EditRecord` (lines 494-500): look the record
up; when absent, mark `needsInsert` and present an empty record carrying the
requested id. -/
def DBState.readRecord (db : DBState) (id : Int) : Bool × Component :=
  match db.FindById id with
  | none => (true, { zeroComponent with id := id })
  | some r => (false, r)

/-- `DBBackend.EditRecord` (lines 493-527): run the callback on the record
read; on commit, reject an id modification, report "No change" without any
statement when the record is byte-for-byte unchanged, and otherwise INSERT
(id, created=now, fields) or UPDATE (updated=now, fields) with empty strings
stored as NULL. -/
def DBState.EditRecord (db : DBState) (now : Nat) (id : Int)
    (update : ModifyFun) : DBState × Bool × String :=
  let nr := db.readRecord id
  let eu := update nr.2
  if eu.2 then
    if eu.1.id ≠ id then (db, false, "ID was modified")
    else if eu.1 = nr.2 then (db, true, "No change")
    else if nr.1 then
      (fun j => if j = id then
          some ⟨now, none, nullIfEmpty eu.1.category, nullIfEmpty eu.1.value,
            nullIfEmpty eu.1.description, nullIfEmpty eu.1.notes,
            nullIfEmpty eu.1.quantity⟩
        else db j, true, "")
    else
      (fun j => if j = id then
          (db j).map fun r =>
            ⟨r.created, some now, nullIfEmpty eu.1.category,
              nullIfEmpty eu.1.value, nullIfEmpty eu.1.description,
              nullIfEmpty eu.1.notes, nullIfEmpty eu.1.quantity⟩
        else db j, true, "")
  else (db, true, "")

/-- `DBBackend.Search` (lines 529-531): `return nil // not implemented
yet.` -/
def DBState.Search (_db : DBState) (_term : GoStr) : List Component := []

/-!
## Equivalence sets (`JoinSet` / `LeaveSet`)

The `StuffStore` interface (src/stuff/main.go lines 52-80) declares
`JoinSet(id, equiv_set)` and `LeaveSet(id)`, but their implementations live
in repository files that are not part of the given sources.
-/

/-- The equivalence-set view of the store: each existing record's
`equiv_set` field, keyed by id. -/
def EquivState := Int → Option Int

/-- Modelled from the spec: the implementation of `JoinSet` is missing from
the given sources (only the `StuffStore` interface declares it).  Per the
spec, `JoinSet(id, equiv_set)` "sets the `equiv_set` field of the record
`id` to the given value"; records other than `id` are untouched. -/
def JoinSet (s : EquivState) (id es : Int) : EquivState :=
  fun j => if j = id then (s id).map (fun _ => es) else s j

/-- Modelled from the spec: the implementation of `LeaveSet` is missing from
the given sources (only the `StuffStore` interface declares it).  Per the
spec, `LeaveSet(id)` "resets `equiv_set` of `id` back to `id` itself" and
"does not affect other members' `equiv_set` values". -/
def LeaveSet (s : EquivState) (id : Int) : EquivState :=
  fun j => if j = id then (s id).map (fun _ => id) else s j

instance instIsTotalScoreGE : IsTotal ScoredComponent scoreGE :=
  ⟨fun a b => Nat.le_total b.score a.score⟩

instance instIsTransScoreGE : IsTrans ScoredComponent scoreGE :=
  ⟨fun _ _ _ hab hbc => Nat.le_trans hbc hab⟩


/-!
## Concrete sample data (spec §8 examples)
-/

def comp10k : Component := ⟨1, "10k".data, "Resistor".data, [], [], []⟩

def compNet : Component := ⟨2, "R-10k-network".data, "R-Network".data, [], [], []⟩

def compNoMatch : Component := ⟨3, "100n".data, "Capacitor (C)".data, [], [], []⟩

def compA : Component := ⟨1, "r".data, [], [], [], []⟩

def compB : Component := ⟨2, "r".data, [], [], [], []⟩

def sampleStore : InMemoryStore :=
  ⟨fun j => if j = 1 then some (0, { zeroComponent with id := 1 }) else none, 1⟩

def dbEmpty : DBState := fun _ => none

def dbWith10k : DBState := fun j =>
  if j = 1 then
    some ⟨0, none, some ("Resistor".data), some ("10k".data), none, none, none⟩
  else none

/-- An updater that tampers with the id and asks to commit. -/
def bumpId : ModifyFun := fun c => ({ c with id := c.id + 1 }, true)

/-- An updater that changes nothing and asks to commit. -/
def keepSame : ModifyFun := fun c => (c, true)

/-- An updater that sets the value field and asks to commit. -/
def setValX : ModifyFun := fun c => ({ c with value := "x".data }, true)

/-- A store in which record 1 exists and is grouped into set 2. -/
def equivSample : EquivState := fun j => if j = 1 then some 2 else none

theorem firstIdxOf_eq_some_zero {t f : GoStr} :
    firstIdxOf t f = some 0 ↔ t <+: f := by
  cases f with
  | nil =>
      simp only [firstIdxOf]
      split
      · simp_all
      · simp_all
  | cons c rest =>
      simp only [firstIdxOf]
      split
      · simp_all
      · simp_all [Option.map_eq_some']

theorem occurs_cons {t : GoStr} {c : Char} {rest : GoStr}
    (h : ¬ t <+: (c :: rest)) : Occurs t (c :: rest) ↔ Occurs t rest := by
  constructor
  · rintro ⟨i, hi⟩
    cases i with
    | zero => exact absurd hi h
    | succ j => exact ⟨j, by simpa using hi⟩
  · rintro ⟨j, hj⟩
    exact ⟨j + 1, by simpa using hj⟩

theorem firstIdxOf_eq_none {t f : GoStr} :
    firstIdxOf t f = none ↔ ¬ Occurs t f := by
  induction f with
  | nil =>
      simp only [firstIdxOf, Occurs]
      constructor
      · intro hn
        split at hn
        · exact absurd hn (by simp)
        · rintro ⟨i, hi⟩
          simp only [List.drop_nil] at hi
          exact absurd hi (by assumption)
      · intro hno
        split
        · exact absurd ⟨0, by simpa using (by assumption : t <+: ([] : GoStr))⟩ hno
        · rfl
  | cons c rest ih =>
      simp only [firstIdxOf]
      split
      · constructor
        · intro hn
          exact absurd hn (by simp)
        · intro hno
          exact absurd ⟨0, by simpa using (by assumption : t <+: (c :: rest))⟩ hno
      · rw [Option.map_eq_none', ih, occurs_cons (by assumption)]

theorem occurs_iff_isSome {t f : GoStr} :
    (firstIdxOf t f).isSome = true ↔ Occurs t f := by
  rw [Option.isSome_iff_ne_none]
  constructor
  · intro hne
    by_contra hno
    exact hne (firstIdxOf_eq_none.mpr hno)
  · intro ho hn
    exact (firstIdxOf_eq_none.mp hn) ho

/-- If the term does not occur at all, the field scores 0. -/
theorem StringScore_of_not_occurs {t f : GoStr} (h : ¬ Occurs t f) :
    StringScore t f = 0 := by
  unfold StringScore
  rw [firstIdxOf_eq_none.mpr h]

/-- If the term occurs at position 0, the field scores 2. -/
theorem StringScore_of_startsWith {t f : GoStr} (h : t <+: f) :
    StringScore t f = 2 := by
  unfold StringScore
  rw [firstIdxOf_eq_some_zero.mpr h]

/-- If the term occurs, but not at position 0, the field scores 1. -/
theorem StringScore_of_interior {t f : GoStr} (ho : Occurs t f)
    (hnp : ¬ t <+: f) : StringScore t f = 1 := by
  unfold StringScore
  cases hfi : firstIdxOf t f with
  | none => exact absurd ho (firstIdxOf_eq_none.mp hfi)
  | some k =>
      cases k with
      | zero => exact absurd (firstIdxOf_eq_some_zero.mp hfi) hnp
      | succ j => rfl

theorem StringScore_le_two (t f : GoStr) : StringScore t f ≤ 2 := by
  unfold StringScore
  cases firstIdxOf t f with
  | none => exact Nat.zero_le 2
  | some k => cases k with
    | zero => exact Nat.le_refl 2
    | succ j => exact Nat.le_succ 1

theorem StringScore_le_one_of_not_startsWith {t f : GoStr} (h : ¬ t <+: f) :
    StringScore t f ≤ 1 := by
  unfold StringScore
  cases hfi : firstIdxOf t f with
  | none => exact Nat.zero_le 1
  | some k => cases k with
    | zero => exact absurd (firstIdxOf_eq_some_zero.mp hfi) h
    | succ j => exact Nat.le_refl 1

/-!
## Search lemmas
-/

theorem search_perm_filter (contents : List Component) (term : GoStr) :
    (Search contents term).Perm
      (contents.filter fun c => decide (0 < c.MatchScore term)) := by
  unfold Search SearchScored
  refine ((List.perm_insertionSort scoreGE _).map ScoredComponent.comp).trans ?_
  rw [List.filter_map]
  rw [List.map_map]
  have hmap : (ScoredComponent.comp ∘ fun c : Component =>
      (⟨c.MatchScore term, c⟩ : ScoredComponent)) = id := by
    funext c
    rfl
  rw [hmap, List.map_id]
  have hp : ((fun sc : ScoredComponent => decide (0 < sc.score)) ∘
      fun c : Component => (⟨c.MatchScore term, c⟩ : ScoredComponent)) =
      fun c : Component => decide (0 < c.MatchScore term) := by
    funext c
    rfl
  rw [hp]

theorem mem_searchScored {contents : List Component} {term : GoStr}
    {sc : ScoredComponent} (h : sc ∈ SearchScored contents term) :
    sc.score = sc.comp.MatchScore term ∧ 0 < sc.score ∧ sc.comp ∈ contents := by
  unfold SearchScored at h
  rw [List.mem_insertionSort, List.mem_filter] at h
  obtain ⟨hmem, hpos⟩ := h
  rw [List.mem_map] at hmem
  obtain ⟨c, hc, rfl⟩ := hmem
  exact ⟨rfl, by simpa using hpos, hc⟩

theorem searchScored_sorted (contents : List Component) (term : GoStr) :
    (SearchScored contents term).Sorted scoreGE :=
  List.sorted_insertionSort scoreGE _

theorem search_pairwise (contents : List Component) (term : GoStr) :
    (Search contents term).Pairwise
      (fun a b => b.MatchScore term ≤ a.MatchScore term) := by
  unfold Search
  rw [List.pairwise_map]
  refine (searchScored_sorted contents term).imp_of_mem ?_
  intro a b ha hb hr
  have ha2 := mem_searchScored ha
  have hb2 := mem_searchScored hb
  calc b.comp.MatchScore term = b.score := hb2.1.symm
    _ ≤ a.score := hr
    _ = a.comp.MatchScore term := ha2.1

theorem mem_search {contents : List Component} {term : GoStr}
    {c : Component} :
    c ∈ Search contents term ↔ c ∈ contents ∧ 0 < c.MatchScore term := by
  rw [(search_perm_filter contents term).mem_iff, List.mem_filter]
  simp

theorem searchScored_scores_sorted (contents : List Component)
    (term : GoStr) :
    ((SearchScored contents term).map ScoredComponent.score).Sorted
      (fun a b : Nat => b ≤ a) := by
  rw [List.Sorted, List.pairwise_map]
  exact searchScored_sorted contents term

/-!
## EditRecord lemmas
-/

theorem readPhase_fst (s : InMemoryStore) (id : Int) :
    (s.readPhase id).1 = (s.recs id).map Prod.fst := by
  unfold InMemoryStore.readPhase
  cases h : s.recs id with
  | none => rfl
  | some p => cases p with | mk t c => rfl

theorem readPhase_snd_of_some {s : InMemoryStore} {id : Int} {t : Nat}
    {c : Component} (h : s.recs id = some (t, c)) :
    (s.readPhase id).2 = c := by
  unfold InMemoryStore.readPhase
  rw [h]

/-- When the callback commits and `EditRecord` runs without interleaving,
the snapshot check passes and a fresh pointer to the edited copy (id forced
back) is installed. -/
theorem editRecord_commit_run (s : InMemoryStore) (id : Int) (u : ModifyFun)
    (hu : (u (s.readPhase id).2).2 = true) :
    s.EditRecord id u =
      (⟨fun j => if j = id then
          some (s.next, { (u (s.readPhase id).2).1 with id := id })
        else s.recs j, s.next + 1⟩, true, "") := by
  unfold InMemoryStore.EditRecord
  simp only [hu, if_true]
  unfold InMemoryStore.commitPhase
  rw [if_pos (readPhase_fst s id).symm]

theorem FindById_id {db : DBState} {id : Int} {r : Component}
    (h : db.FindById id = some r) : r.id = id := by
  unfold DBState.FindById at h
  rw [Option.map_eq_some'] at h
  obtain ⟨row, _, hr⟩ := h
  rw [← hr]

theorem readRecord_id (db : DBState) (id : Int) :
    (db.readRecord id).2.id = id := by
  unfold DBState.readRecord
  cases h : db.FindById id with
  | none => rfl
  | some r => exact FindById_id h

/-- `DBBackend.EditRecord` rejects a callback that modified the id. -/
theorem dbEdit_reject_id (db : DBState) (now : Nat) (id : Int)
    (u : ModifyFun) (hu : (u (db.readRecord id).2).2 = true)
    (hid : (u (db.readRecord id).2).1.id ≠ id) :
    db.EditRecord now id u = (db, false, "ID was modified") := by
  unfold DBState.EditRecord
  simp only [hu, if_true]
  rw [if_pos hid]

/-- `DBBackend.EditRecord` on a byte-for-byte-identical commit: "No change",
no statement executed. -/
theorem dbEdit_no_change (db : DBState) (now : Nat) (id : Int)
    (u : ModifyFun)
    (hu : u (db.readRecord id).2 = ((db.readRecord id).2, true)) :
    db.EditRecord now id u = (db, true, "No change") := by
  unfold DBState.EditRecord
  simp [hu, readRecord_id]
/-!
## Claims
-/

/-- C4: a component's relevance score equals
`1·match(term, category) + 3·match(term, value) + 2·match(term, description)`
(value weighted highest, description second, category lowest), where a field
scores 0 when the term does not occur in it, 2 when it occurs at position 0,
1 when it occurs only at an interior position — so a position-0 occurrence
scores strictly higher than an interior one. -/
theorem C4_score_weighted_sum :
    (∀ (term : GoStr) (c : Component), c.MatchScore term =
        1 * StringScore term c.category + 3 * StringScore term c.value +
          2 * StringScore term c.description)
    ∧ (∀ t f, ¬ Occurs t f → StringScore t f = 0)
    ∧ (∀ t f, t <+: f → StringScore t f = 2)
    ∧ (∀ t f, Occurs t f → ¬ t <+: f → StringScore t f = 1)
    ∧ (∀ t f g, Occurs t f → ¬ t <+: f → t <+: g →
        StringScore t f < StringScore t g) := by
  refine ⟨fun term c => rfl, fun t f h => StringScore_of_not_occurs h,
    fun t f h => StringScore_of_startsWith h,
    fun t f ho hn => StringScore_of_interior ho hn, fun t f g ho hn hg => ?_⟩
  rw [StringScore_of_interior ho hn, StringScore_of_startsWith hg]
  omega

theorem C4_witness :
    (¬ Occurs ("10k".data) ("Capacitor (C)".data))
    ∧ ("10k".data) <+: ("10k".data)
    ∧ Occurs ("10k".data) ("R-10k-network".data)
    ∧ (¬ ("10k".data) <+: ("R-10k-network".data))
    ∧ comp10k.MatchScore ("10k".data) =
        1 * StringScore ("10k".data) comp10k.category +
          3 * StringScore ("10k".data) comp10k.value +
          2 * StringScore ("10k".data) comp10k.description
    ∧ StringScore ("10k".data) ("Capacitor (C)".data) = 0
    ∧ StringScore ("10k".data) ("10k".data) = 2
    ∧ StringScore ("10k".data) ("R-10k-network".data) = 1
    ∧ StringScore ("10k".data) ("R-10k-network".data) <
        StringScore ("10k".data) ("10k".data) := by
  have h1 : ¬ Occurs ("10k".data) ("Capacitor (C)".data) :=
    firstIdxOf_eq_none.mp (by decide)
  have h2 : ("10k".data) <+: ("10k".data) := by decide
  have h3 : Occurs ("10k".data) ("R-10k-network".data) := ⟨2, by decide⟩
  have h4 : ¬ ("10k".data) <+: ("R-10k-network".data) := by decide
  exact ⟨h1, h2, h3, h4, C4_score_weighted_sum.1 ("10k".data) comp10k,
    C4_score_weighted_sum.2.1 _ _ h1, C4_score_weighted_sum.2.2.1 _ _ h2,
    C4_score_weighted_sum.2.2.2.1 _ _ h3 h4,
    C4_score_weighted_sum.2.2.2.2 _ _ _ h3 h4 h2⟩

/-- C5: `Search` returns exactly the stored components with positive total
score (a permutation of the positive-score filter of the store's contents),
in descending order of score; a component is in the result iff it is stored
and scores above 0, so nothing with score 0 ever appears. -/
theorem C5_search_positive_descending (contents : List Component)
    (term : GoStr) :
    (Search contents term).Perm
      (contents.filter fun c => decide (0 < c.MatchScore term))
    ∧ (Search contents term).Pairwise
        (fun a b => b.MatchScore term ≤ a.MatchScore term)
    ∧ ∀ c, c ∈ Search contents term ↔
        c ∈ contents ∧ 0 < c.MatchScore term :=
  ⟨search_perm_filter contents term, search_pairwise contents term,
    fun _ => mem_search⟩

theorem C5_witness :
    (Search [comp10k, compNet] ("10k".data)).Perm
      ([comp10k, compNet].filter fun c =>
        decide (0 < c.MatchScore ("10k".data)))
    ∧ (Search [comp10k, compNet] ("10k".data)).Pairwise
        (fun a b => b.MatchScore ("10k".data) ≤ a.MatchScore ("10k".data))
    ∧ ∀ c, c ∈ Search [comp10k, compNet] ("10k".data) ↔
        c ∈ [comp10k, compNet] ∧ 0 < c.MatchScore ("10k".data) :=
  C5_search_positive_descending [comp10k, compNet] ("10k".data)

/-- C8: a component whose `value` equals the term (so the term occurs at
position 0 of `value`) scores at least as high as any component where the
term starts at position 0 of none of the three fields (i.e. occurs at most
as an interior substring); and a component in which the term occurs in none
of category, value, description is absent from every `Search` result. -/
theorem C8_exact_value_beats_interior :
    (∀ (t : GoStr) (c₁ c₂ : Component), c₁.value = t →
        ¬ t <+: c₂.category → ¬ t <+: c₂.value → ¬ t <+: c₂.description →
        c₂.MatchScore t ≤ c₁.MatchScore t)
    ∧ (∀ (t : GoStr) (contents : List Component) (c : Component),
        ¬ Occurs t c.category → ¬ Occurs t c.value →
        ¬ Occurs t c.description → c ∉ Search contents t) := by
  constructor
  · intro t c₁ c₂ hv hc hval hd
    have hpv : t <+: c₁.value := by
      rw [hv]
    have h2 : StringScore t c₁.value = 2 := StringScore_of_startsWith hpv
    have b1 := StringScore_le_one_of_not_startsWith hc
    have b2 := StringScore_le_one_of_not_startsWith hval
    have b3 := StringScore_le_one_of_not_startsWith hd
    unfold Component.MatchScore
    rw [h2]
    omega
  · intro t contents c hc hv hd hmem
    rw [mem_search] at hmem
    have hz : c.MatchScore t = 0 := by
      unfold Component.MatchScore
      rw [StringScore_of_not_occurs hc, StringScore_of_not_occurs hv,
        StringScore_of_not_occurs hd]
    rw [hz] at hmem
    exact absurd hmem.2 (by omega)

theorem C8_witness :
    (comp10k.value = "10k".data
      ∧ ¬ ("10k".data) <+: compNet.category
      ∧ ¬ ("10k".data) <+: compNet.value
      ∧ ¬ ("10k".data) <+: compNet.description
      ∧ compNet.MatchScore ("10k".data) ≤ comp10k.MatchScore ("10k".data))
    ∧ (¬ Occurs ("10k".data) compNoMatch.category
      ∧ ¬ Occurs ("10k".data) compNoMatch.value
      ∧ ¬ Occurs ("10k".data) compNoMatch.description
      ∧ compNoMatch ∉
          Search [comp10k, compNet, compNoMatch] ("10k".data)) := by
  have h1 : ¬ ("10k".data) <+: compNet.category := by decide
  have h2 : ¬ ("10k".data) <+: compNet.value := by decide
  have h3 : ¬ ("10k".data) <+: compNet.description := by decide
  have h4 : ¬ Occurs ("10k".data) compNoMatch.category :=
    firstIdxOf_eq_none.mp (by decide)
  have h5 : ¬ Occurs ("10k".data) compNoMatch.value :=
    firstIdxOf_eq_none.mp (by decide)
  have h6 : ¬ Occurs ("10k".data) compNoMatch.description :=
    firstIdxOf_eq_none.mp (by decide)
  exact ⟨⟨rfl, h1, h2, h3,
      C8_exact_value_beats_interior.1 ("10k".data) comp10k compNet rfl h1 h2 h3⟩,
    ⟨h4, h5, h6,
      C8_exact_value_beats_interior.2 ("10k".data) _ compNoMatch h4 h5 h6⟩⟩

/-- C10: with the empty search term, every field is a position-0 match
(`strings.Index(f, "") = 0`), so each field scores 2, every component's
total score is `1·2 + 3·2 + 2·2 = 12 > 0`, and `Search ""` returns every
stored component. -/
theorem C10_empty_term_returns_all :
    (∀ f : GoStr, StringScore [] f = 2)
    ∧ (∀ c : Component, c.MatchScore [] = 12)
    ∧ ∀ contents : List Component, (Search contents []).Perm contents := by
  have hs : ∀ f : GoStr, StringScore [] f = 2 := fun f =>
    StringScore_of_startsWith ⟨f, rfl⟩
  have hm : ∀ c : Component, c.MatchScore [] = 12 := by
    intro c
    unfold Component.MatchScore
    rw [hs, hs, hs]
  refine ⟨hs, hm, fun contents => ?_⟩
  have hf : (contents.filter fun c => decide (0 < c.MatchScore [])) =
      contents := by
    apply List.filter_eq_self.mpr
    intro a _
    simp [hm a]
  have hp := search_perm_filter contents []
  rw [hf] at hp
  exact hp

/-- C1: if between one `EditRecord` call's read of the record and its commit
another `EditRecord` on the same id has already committed (installing a
fresh pointer), the later commit's pointer comparison fails: it is rejected
with committed=false and the conflict message, and the store — holding the
interleaved winner's value — is left unchanged by the rejected call. -/
theorem C1_interleaved_commit_rejected (s0 : InMemoryStore) (id : Int)
    (u₂ : ModifyFun) (e : Component) (hwf : s0.WF)
    (hu : (u₂ (s0.readPhase id).2).2 = true) :
    (s0.EditRecord id u₂).2.1 = true ∧
    InMemoryStore.commitPhase (s0.EditRecord id u₂).1 id
        (s0.readPhase id).1 e =
      ((s0.EditRecord id u₂).1, false,
        "Editing conflict. Discarding this edit. Sorry.") := by
  have hrun := editRecord_commit_run s0 id u₂ hu
  constructor
  · rw [hrun]
  · have htok : (((s0.EditRecord id u₂).1).recs id).map Prod.fst =
        some s0.next := by
      rw [hrun]
      simp
    have hne : some s0.next ≠ (s0.recs id).map Prod.fst := by
      cases h : s0.recs id with
      | none => simp
      | some p =>
          cases p with
          | mk t c =>
              have ht := hwf id t c h
              simp only [Option.map_some', ne_eq, Option.some.injEq]
              omega
    simp only [InMemoryStore.commitPhase]
    rw [htok, readPhase_fst, if_neg hne]

theorem C1_witness :
    sampleStore.WF
    ∧ (setValX (sampleStore.readPhase 1).2).2 = true
    ∧ (sampleStore.EditRecord 1 setValX).2.1 = true
    ∧ InMemoryStore.commitPhase (sampleStore.EditRecord 1 setValX).1 1
        (sampleStore.readPhase 1).1 zeroComponent =
      ((sampleStore.EditRecord 1 setValX).1, false,
        "Editing conflict. Discarding this edit. Sorry.") := by
  have hwf : sampleStore.WF := by
    intro i t c h
    by_cases hi : i = 1
    · subst hi
      simp only [sampleStore, if_pos rfl, Option.some.injEq, Prod.mk.injEq]
        at h
      obtain ⟨h1, _⟩ := h
      decide
    · simp only [sampleStore, if_neg hi] at h
      exact absurd h (by simp)
  have hu : (setValX (sampleStore.readPhase 1).2).2 = true := rfl
  exact ⟨hwf, hu,
    (C1_interleaved_commit_rejected sampleStore 1 setValX zeroComponent hwf hu).1,
    (C1_interleaved_commit_rejected sampleStore 1 setValX zeroComponent hwf hu).2⟩

/-- C2 counterexample: on the in-memory backend an updater that alters the
id and asks to commit is NOT rejected — `EditRecord` silently forces the id
back (`toEdit.id = id`), reports committed=true with an empty message, and
writes the record. -/
theorem C2_counterexample :
    (NewInMemoryStore.EditRecord 5 bumpId).2.1 = true
    ∧ (NewInMemoryStore.EditRecord 5 bumpId).2.2 = ""
    ∧ (NewInMemoryStore.EditRecord 5 bumpId).1.recs 5 =
        some (0, { zeroComponent with id := 5 }) := by
  refine ⟨rfl, rfl, ?_⟩
  decide

/-- C2 amended: only the durable backend rejects an id-tampering updater
(committed=false, "ID was modified", no write); the in-memory backend does
not reject — it silently resets the id field back to the requested id and
commits the rest of the edit with committed=true. -/
theorem C2_amended :
    (∀ (db : DBState) (now : Nat) (id : Int) (u : ModifyFun),
        (u (db.readRecord id).2).2 = true →
        (u (db.readRecord id).2).1.id ≠ id →
        db.EditRecord now id u = (db, false, "ID was modified"))
    ∧ (∀ (s : InMemoryStore) (id : Int) (u : ModifyFun),
        (u (s.readPhase id).2).2 = true →
        s.EditRecord id u =
          (⟨fun j => if j = id then
              some (s.next, { (u (s.readPhase id).2).1 with id := id })
            else s.recs j, s.next + 1⟩, true, "")) :=
  ⟨dbEdit_reject_id, editRecord_commit_run⟩

theorem C2_witness :
    ((bumpId (dbEmpty.readRecord 7).2).2 = true)
    ∧ ((bumpId (dbEmpty.readRecord 7).2).1.id ≠ 7)
    ∧ dbEmpty.EditRecord 0 7 bumpId = (dbEmpty, false, "ID was modified")
    ∧ ((bumpId (NewInMemoryStore.readPhase 5).2).2 = true)
    ∧ NewInMemoryStore.EditRecord 5 bumpId =
        (⟨fun j => if j = 5 then
            some (NewInMemoryStore.next,
              { (bumpId (NewInMemoryStore.readPhase 5).2).1 with id := 5 })
          else NewInMemoryStore.recs j, NewInMemoryStore.next + 1⟩,
          true, "") := by
  have h1 : (bumpId (dbEmpty.readRecord 7).2).2 = true := rfl
  have h2 : (bumpId (dbEmpty.readRecord 7).2).1.id ≠ 7 := by decide
  have h3 : (bumpId (NewInMemoryStore.readPhase 5).2).2 = true := rfl
  exact ⟨h1, h2, C2_amended.1 dbEmpty 0 7 bumpId h1 h2, h3,
    C2_amended.2 NewInMemoryStore 5 bumpId h3⟩

/-- C3 counterexample: on the in-memory backend, an updater that commits a
byte-for-byte identical record DOES touch backing storage: committed=true,
the stored value is unchanged, but the entry is rewritten with a fresh
pointer (so the entry differs from the one read). -/
theorem C3_counterexample :
    (sampleStore.EditRecord 1 keepSame).2.1 = true
    ∧ ((sampleStore.EditRecord 1 keepSame).1.recs 1).map Prod.snd =
        (sampleStore.recs 1).map Prod.snd
    ∧ (sampleStore.EditRecord 1 keepSame).1.recs 1 ≠ sampleStore.recs 1 := by
  refine ⟨rfl, rfl, ?_⟩
  decide

/-- C3 amended: on the durable backend a committed byte-for-byte identical
edit of an existing record is a no-op success — committed=true with message
"No change" and the database (rows and timestamps) untouched; the in-memory
backend also reports committed=true and leaves the stored field values
unchanged, but it performs the redundant write, replacing the entry with a
fresh pointer. -/
theorem C3_amended :
    (∀ (db : DBState) (now : Nat) (id : Int) (r : DBRow) (u : ModifyFun),
        db id = some r →
        u (db.readRecord id).2 = ((db.readRecord id).2, true) →
        db.EditRecord now id u = (db, true, "No change"))
    ∧ (∀ (s : InMemoryStore) (id : Int) (t : Nat) (c0 : Component)
        (u : ModifyFun),
        s.recs id = some (t, c0) → c0.id = id → u c0 = (c0, true) →
        (s.EditRecord id u).2.1 = true
        ∧ ((s.EditRecord id u).1.recs id).map Prod.snd = some c0
        ∧ (s.WF → (s.EditRecord id u).1.recs id ≠ s.recs id)) := by
  constructor
  · intro db now id r u _ hu
    exact dbEdit_no_change db now id u hu
  · intro s id t c0 u hrec hcid hu
    have hread : (s.readPhase id).2 = c0 := readPhase_snd_of_some hrec
    have hu' : (u (s.readPhase id).2).2 = true := by rw [hread, hu]
    have hrun := editRecord_commit_run s id u hu'
    have hstore : { (u (s.readPhase id).2).1 with id := id } = c0 := by
      rw [hread, hu, ← hcid]
    refine ⟨by rw [hrun], ?_, ?_⟩
    · rw [hrun]
      simp [hstore]
    · intro hwf
      have ht := hwf id t c0 hrec
      rw [hrun]
      simp only [if_pos rfl, if_true, ite_true, hrec, ne_eq,
        Option.some.injEq, Prod.mk.injEq, not_and]
      intro hEq
      exact absurd hEq (by omega)

theorem sampleStore_wf : sampleStore.WF := by
  intro i t c h
  by_cases hi : i = 1
  · subst hi
    simp only [sampleStore, if_pos rfl, Option.some.injEq, Prod.mk.injEq] at h
    obtain ⟨h1, _⟩ := h
    decide
  · simp only [sampleStore, if_neg hi] at h
    exact absurd h (by simp)

theorem C3_witness :
    dbWith10k 1 = some ⟨0, none, some ("Resistor".data), some ("10k".data),
        none, none, none⟩
    ∧ keepSame (dbWith10k.readRecord 1).2 = ((dbWith10k.readRecord 1).2, true)
    ∧ dbWith10k.EditRecord 5 1 keepSame = (dbWith10k, true, "No change")
    ∧ sampleStore.recs 1 = some (0, { zeroComponent with id := 1 })
    ∧ ({ zeroComponent with id := 1 } : Component).id = 1
    ∧ keepSame { zeroComponent with id := 1 } =
        ({ zeroComponent with id := 1 }, true)
    ∧ (sampleStore.EditRecord 1 keepSame).2.1 = true
    ∧ ((sampleStore.EditRecord 1 keepSame).1.recs 1).map Prod.snd =
        some { zeroComponent with id := 1 }
    ∧ (sampleStore.EditRecord 1 keepSame).1.recs 1 ≠ sampleStore.recs 1 := by
  have h1 : dbWith10k 1 = some ⟨0, none, some ("Resistor".data),
      some ("10k".data), none, none, none⟩ := rfl
  have hIMS := C3_amended.2 sampleStore 1 0 { zeroComponent with id := 1 }
    keepSame rfl rfl rfl
  exact ⟨h1, rfl, C3_amended.1 dbWith10k 5 1 _ keepSame h1 rfl, rfl, rfl, rfl,
    hIMS.1, hIMS.2.1, hIMS.2.2 sampleStore_wf⟩

/-- C6 counterexample: the order in which equal-score components leave
`Search` depends on the order in which the (randomized) map iteration
presents them: the same store contents presented in two different orders
yield different result lists, so `Search` is not deterministic and there is
no id tie-break. -/
theorem C6_counterexample :
    ([compA, compB] : List Component).Perm [compB, compA]
    ∧ Search [compA, compB] ("r".data) = [compA, compB]
    ∧ Search [compB, compA] ("r".data) = [compB, compA]
    ∧ Search [compA, compB] ("r".data) ≠ Search [compB, compA] ("r".data) := by
  refine ⟨List.Perm.swap compB compA [], ?_, ?_, ?_⟩ <;> decide

/-- C6 amended: `Search` is deterministic only up to the order of
equal-score components: for any two enumerations of the same store contents
the results are permutations of each other and carry the identical
descending score sequence, but no tie-break (e.g. by id) fixes the relative
order of equal-score components. -/
theorem C6_amended (contents₁ contents₂ : List Component) (term : GoStr)
    (hp : contents₁.Perm contents₂) :
    (Search contents₁ term).Perm (Search contents₂ term)
    ∧ (SearchScored contents₁ term).map ScoredComponent.score =
        (SearchScored contents₂ term).map ScoredComponent.score := by
  have hscored : (SearchScored contents₁ term).Perm
      (SearchScored contents₂ term) := by
    unfold SearchScored
    exact (List.perm_insertionSort scoreGE _).trans
      (((hp.map _).filter _).trans (List.perm_insertionSort scoreGE _).symm)
  constructor
  · unfold Search
    exact hscored.map ScoredComponent.comp
  · haveI : IsAntisymm Nat (fun a b : Nat => b ≤ a) :=
      ⟨fun a b h1 h2 => Nat.le_antisymm h2 h1⟩
    exact List.eq_of_perm_of_sorted (hscored.map ScoredComponent.score)
      (searchScored_scores_sorted contents₁ term)
      (searchScored_scores_sorted contents₂ term)

theorem C6_witness :
    ([compA, compB] : List Component).Perm [compB, compA]
    ∧ (Search [compA, compB] ("r".data)).Perm (Search [compB, compA] ("r".data))
    ∧ (SearchScored [compA, compB] ("r".data)).map ScoredComponent.score =
        (SearchScored [compB, compA] ("r".data)).map ScoredComponent.score :=
  ⟨List.Perm.swap compB compA [],
    (C6_amended [compA, compB] [compB, compA] ("r".data)
      (List.Perm.swap compB compA [])).1,
    (C6_amended [compA, compB] [compB, compA] ("r".data)
      (List.Perm.swap compB compA [])).2⟩

/-- C7: the two backends do NOT return the same search results — for the
same single stored record (a 10kΩ resistor, visible through both
`FindById`s), the in-memory `Search` returns the matching component while
`DBBackend.Search` returns the empty list (the source reads
`return nil // not implemented yet.`). -/
theorem C7_divergence :
    dbWith10k.FindById 1 = some comp10k
    ∧ Search [comp10k] ("10k".data) = [comp10k]
    ∧ dbWith10k.Search ("10k".data) = []
    ∧ Search [comp10k] ("10k".data) ≠ dbWith10k.Search ("10k".data) := by
  refine ⟨rfl, ?_, rfl, ?_⟩ <;> decide

/-- C9 counterexample: taken literally for ALL ids A and B, the claim fails
when A = B: with record 1 grouped as `equiv_set = 2`, the call
`JoinSet(1, 1)` itself changes B's (= 1's) `equiv_set` from 2 to 1. -/
theorem C9_counterexample :
    equivSample 1 = some 2
    ∧ JoinSet equivSample 1 1 1 = some 1
    ∧ JoinSet equivSample 1 1 1 ≠ equivSample 1 := by
  refine ⟨rfl, ?_, ?_⟩ <;> decide

/-- C9 amended (spec-modelled): for distinct ids A ≠ B, `JoinSet(A, B)`
followed by `LeaveSet(A)` restores A's `equiv_set` to A's own id (when A's
record exists; an absent record stays absent), and neither call changes B's
`equiv_set`. -/
theorem C9_amended (s : EquivState) (A B : Int) (hne : A ≠ B) :
    LeaveSet (JoinSet s A B) A A = (s A).map (fun _ => A)
    ∧ JoinSet s A B B = s B
    ∧ LeaveSet (JoinSet s A B) A B = s B := by
  refine ⟨?_, ?_, ?_⟩
  · cases h : s A with
    | none => simp [LeaveSet, JoinSet, h]
    | some e => simp [LeaveSet, JoinSet, h]
  · unfold JoinSet
    rw [if_neg (fun h => hne h.symm)]
  · unfold LeaveSet JoinSet
    rw [if_neg (fun h => hne h.symm), if_neg (fun h => hne h.symm)]

theorem C9_witness :
    (1 : Int) ≠ 2
    ∧ LeaveSet (JoinSet equivSample 1 2) 1 1 =
        (equivSample 1).map (fun _ => (1 : Int))
    ∧ JoinSet equivSample 1 2 2 = equivSample 2
    ∧ LeaveSet (JoinSet equivSample 1 2) 1 2 = equivSample 2 := by
  have hne : (1 : Int) ≠ 2 := by decide
  exact ⟨hne, (C9_amended equivSample 1 2 hne).1,
    (C9_amended equivSample 1 2 hne).2.1,
    (C9_amended equivSample 1 2 hne).2.2⟩
